import Mathlib

/-!
Verification of the encrypted key vault embedded in the dashboard page of
`primal-host/crypto-wallet` (`internal/server/dashboard.go`, browser-side
script).  The script's global mutable state (`walletState`, `decryptedKeys`,
`activeKeyIndex`, `aesKey`, `storedKeyCount`, `credMethod`) together with the
IndexedDB-backed stores (`credentials`, `keys`) is embedded as an explicit
`VaultState` value, and every vault operation is a pure function from state
(plus the values obtained from external capabilities: random IVs, PRF
outputs, derived addresses, generated keys, timestamps) to state and result.

WebCrypto primitives (HKDF, PBKDF2, AES-GCM) are external platform
capabilities, not code of this repository; they are embedded symbolically:
a derived key records exactly the algorithm and parameters with which
`crypto.subtle.deriveKey` was invoked, and an AES-GCM ciphertext records
the key and IV under which `crypto.subtle.encrypt` was invoked, so that
decryption succeeds exactly when key and IV match (the authentication-tag
semantics of AES-GCM).
-/

namespace Vault

/-- UTF-8 byte view of an ASCII string (`new TextEncoder().encode(s)` for
the ASCII constants used by the script). -/
def strBytes (s : String) : List Nat :=
  s.data.map (fun c => c.toNat)

/-- `const PRF_SALT = new TextEncoder().encode('wallet-encryption-v1')`. -/
def PRF_SALT : List Nat := strBytes "wallet-encryption-v1"

/-- `const HKDF_INFO = new TextEncoder().encode('AES-GCM Wallet Encryption Key V1')`. -/
def HKDF_INFO : List Nat := strBytes "AES-GCM Wallet Encryption Key V1"

/-- `const PBKDF2_ITERATIONS = 600000`. -/
def PBKDF2_ITERATIONS : Nat := 600000

/-- Symbolic record of the key-derivation invocation that produced a key:
either HKDF over a PRF output or PBKDF2 over a password, each with the salt,
info/iteration and hash parameters passed to `crypto.subtle.deriveKey`. -/
inductive KeyMaterial
  | hkdf (salt : List Nat) (info : List Nat) (hash : String) (ikm : List Nat)
  | pbkdf2 (salt : List Nat) (iterations : Nat) (hash : String) (password : String)
deriving DecidableEq, Repr

/-- Symbolic `CryptoKey`: derivation record plus the target-algorithm
parameters (`{ name: 'AES-GCM', length: 256 }`) and extractability flag. -/
structure SymKey where
  material : KeyMaterial
  algoName : String
  algoLength : Nat
  extractable : Bool
deriving DecidableEq, Repr

/-- `deriveAESKeyFromPRF(prfOutput)`: HKDF-SHA256 with `PRF_SALT` and
`HKDF_INFO`, target `{ name: 'AES-GCM', length: 256 }`, extractable `false`. -/
def deriveAESKeyFromPRF (prfOutput : List Nat) : SymKey :=
  { material := KeyMaterial.hkdf PRF_SALT HKDF_INFO "SHA-256" prfOutput
    algoName := "AES-GCM", algoLength := 256, extractable := false }

/-- `deriveAESKeyFromPassword(password, salt)`: PBKDF2-SHA256 with
`PBKDF2_ITERATIONS` iterations over the given salt, target
`{ name: 'AES-GCM', length: 256 }`, extractable `false`. -/
def deriveAESKeyFromPassword (password : String) (salt : List Nat) : SymKey :=
  { material := KeyMaterial.pbkdf2 salt PBKDF2_ITERATIONS "SHA-256" password
    algoName := "AES-GCM", algoLength := 256, extractable := false }

/-- Symbolic AES-GCM ciphertext: remembers the key and IV of the
`crypto.subtle.encrypt` call and the plaintext it protects.  Decryption
under a different key or IV fails (tag mismatch). -/
structure Ciphertext where
  keyTag : SymKey
  ivTag : List Nat
  body : String
deriving DecidableEq, Repr

/-- `encryptPrivateKey(plaintext, key)`: AES-GCM encryption under `key`
with the fresh 12-byte IV supplied by `crypto.getRandomValues` (a parameter
of the embedding); returns `{ encrypted, iv }`. -/
def encryptPrivateKey (plaintext : String) (key : SymKey) (iv : List Nat) :
    Ciphertext × List Nat :=
  ({ keyTag := key, ivTag := iv, body := plaintext }, iv)

/-- `decryptPrivateKey(encrypted, iv, key)`: AES-GCM decryption; `none`
embeds the `DecryptionError` thrown by `crypto.subtle.decrypt` on an
authentication-tag mismatch. -/
def decryptPrivateKey (encrypted : Ciphertext) (iv : List Nat) (key : SymKey) :
    Option String :=
  if encrypted.keyTag = key ∧ encrypted.ivTag = iv then some encrypted.body
  else none

theorem decrypt_encrypt (plaintext : String) (key : SymKey) (iv : List Nat) :
    decryptPrivateKey (encryptPrivateKey plaintext key iv).1
      (encryptPrivateKey plaintext key iv).2 key = some plaintext := by
  simp [decryptPrivateKey, encryptPrivateKey]

/-- The credential descriptor persisted under key `"primary"` in the
`credentials` store: the `method` tag is `'prf'` or `'password'`, with the
method-specific fields stored by `setupBiometric` / `setupWithPassword`. -/
inductive Cred
  | prf (credentialId : List Nat) (rpId : String) (transports : List String)
      (createdAt : Nat)
  | password (pbkdf2Salt : List Nat) (createdAt : Nat)
deriving DecidableEq, Repr

/-- The `method` field stored with the credential (`'prf'` or `'password'`);
`init` reads it as `cred.method || 'prf'`. -/
def credMethodOf : Cred → String
  | Cred.prf _ _ _ _ => "prf"
  | Cred.password _ _ => "password"

/-- A record of the `keys` object store: `{id, label, address, encrypted,
iv, createdAt}` with `id` assigned by IndexedDB auto-increment. -/
structure KeyRecord where
  id : Nat
  label : String
  address : String
  encrypted : Ciphertext
  iv : List Nat
  createdAt : Nat
deriving DecidableEq, Repr

/-- An element of the in-memory `decryptedKeys` array:
`{id, label, address, key}` where `key` is the plaintext private key. -/
structure Entry where
  id : Nat
  label : String
  address : String
  key : String
deriving DecidableEq, Repr

/-- The script's global mutable state together with the contents of the two
IndexedDB object stores.  `walletState` is the literal string the script
uses (`'none' | 'locked' | 'unlocked'`); `nextId` is the auto-increment
counter of the `keys` store. -/
structure VaultState where
  walletState : String
  decryptedKeys : List Entry
  activeKeyIndex : Nat
  aesKey : Option SymKey
  storedKeyCount : Nat
  credMethod : String
  credential : Option Cred
  keys : List KeyRecord
  nextId : Nat
deriving DecidableEq, Repr

/-- Auto-increment counter consistent with the records already present. -/
def nextIdOf (records : List KeyRecord) : Nat :=
  (records.map (fun r => r.id)).foldr Nat.max 0 + 1

/-- The `init()` IIFE: `getCredential()`; when a credential exists, read
`storedKeyCount` from `getEncryptedKeys().length` (no decryption), set
`credMethod` and move to `'locked'`; otherwise stay at `'none'`.  The two
store contents are the function's inputs. -/
def initVault (cred : Option Cred) (records : List KeyRecord) : VaultState :=
  let base : VaultState :=
    { walletState := "none", decryptedKeys := [], activeKeyIndex := 0
      aesKey := Option.none, storedKeyCount := 0, credMethod := ""
      credential := cred, keys := records, nextId := nextIdOf records }
  match cred with
  | Option.none => base
  | Option.some c =>
      { base with
        storedKeyCount := records.length
        credMethod := credMethodOf c
        walletState := "locked" }

/-- The loop body of `decryptAllKeys()`: walk the persisted records in
store order, decrypting each and pushing the entry onto the accumulator;
a failed decryption (or a `null` `aesKey`) throws, leaving the entries
pushed so far.  Returns the pushed entries and whether the loop finished. -/
def decryptAllKeysLoop (key : Option SymKey) :
    List KeyRecord → List Entry → List Entry × Bool
  | [], acc => (acc, true)
  | r :: rest, acc =>
      match key with
      | Option.none => (acc, false)
      | Option.some k =>
          match decryptPrivateKey r.encrypted r.iv k with
          | Option.none => (acc, false)
          | Option.some plaintext =>
              decryptAllKeysLoop key rest
                (acc ++ [{ id := r.id, label := r.label, address := r.address
                           key := plaintext }])

/-- `decryptAllKeys()`: resets `decryptedKeys` to `[]`, then decrypts every
persisted record in order, pushing each entry; on success sets
`activeKeyIndex = 0` and `storedKeyCount = decryptedKeys.length`.  When a
record fails to decrypt the exception propagates after the earlier entries
have already been pushed, so those remain in `decryptedKeys`. -/
def decryptAllKeys (st : VaultState) : VaultState × Bool :=
  match decryptAllKeysLoop st.aesKey st.keys [] with
  | (entries, true) =>
      ({ st with decryptedKeys := entries, activeKeyIndex := 0
                 storedKeyCount := entries.length }, true)
  | (entries, false) =>
      ({ st with decryptedKeys := entries }, false)

/-- Outcome of `setupWithPassword()` as surfaced to the page. -/
inductive SetupResult
  | success
  | emptyPassword
  | tooShort
  | mismatch
deriving DecidableEq, Repr

/-- `setupWithPassword()`: validates the password (`!pw`, `pw.length < 8`,
`pw !== confirm`) before touching any cryptographic or storage primitive;
on success generates the salt (a parameter of the embedding), derives the
key, persists `{id:'primary', method:'password', pbkdf2Salt, createdAt}`
and moves to `'unlocked'` with an empty decrypted list. -/
def setupWithPassword (st : VaultState) (pw confirm : String)
    (salt : List Nat) (now : Nat) : VaultState × SetupResult :=
  if pw = "" then (st, SetupResult.emptyPassword)
  else if pw.length < 8 then (st, SetupResult.tooShort)
  else if pw ≠ confirm then (st, SetupResult.mismatch)
  else
    let key := deriveAESKeyFromPassword pw salt
    ({ st with
        credential := Option.some (Cred.password salt now)
        credMethod := "password"
        walletState := "unlocked"
        decryptedKeys := []
        storedKeyCount := 0
        aesKey := Option.some key }, SetupResult.success)

/-- Outcome of the PRF branch of `unlockWallet()`. -/
inductive UnlockPrfResult
  | success
  | passwordModal
  | failure
deriving DecidableEq, Repr

/-- `unlockWallet()`: with a password credential it only opens the password
modal.  Otherwise it requests a PRF assertion (`prfResult` is the PRF
output, `none` embedding a cancelled assertion, a missing credential read,
or a missing PRF extension result), assigns `aesKey`, and runs
`decryptAllKeys()`.  The `catch` block only logs and re-renders: on a
decryption failure after the key was derived, `aesKey` is NOT reset. -/
def unlockWallet (st : VaultState) (prfResult : Option (List Nat)) :
    VaultState × UnlockPrfResult :=
  if st.credMethod = "password" then (st, UnlockPrfResult.passwordModal)
  else
    match st.credential with
    | Option.none => (st, UnlockPrfResult.failure)
    | Option.some _ =>
        match prfResult with
        | Option.none => (st, UnlockPrfResult.failure)
        | Option.some prf =>
            let st1 := { st with aesKey := Option.some (deriveAESKeyFromPRF prf) }
            match decryptAllKeys st1 with
            | (st2, true) => ({ st2 with walletState := "unlocked" }, UnlockPrfResult.success)
            | (st2, false) => (st2, UnlockPrfResult.failure)

/-- Outcome of `unlockWithPassword()`. -/
inductive UnlockPwResult
  | success
  | emptyPassword
  | failure
deriving DecidableEq, Repr

/-- `unlockWithPassword()`: rejects an empty password, reads the stored
credential (throwing when it is absent or has no `pbkdf2Salt`), derives the
key, assigns `aesKey`, and runs `decryptAllKeys()` as the verification
step.  Every thrown error lands in the `catch` block, which shows the
wrong-password error and sets `aesKey = null` — but leaves whatever
`decryptAllKeys` had already pushed into `decryptedKeys`. -/
def unlockWithPassword (st : VaultState) (pw : String) :
    VaultState × UnlockPwResult :=
  if pw = "" then (st, UnlockPwResult.emptyPassword)
  else
    match st.credential with
    | Option.some (Cred.password salt _) =>
        let st1 := { st with aesKey := Option.some (deriveAESKeyFromPassword pw salt) }
        match decryptAllKeys st1 with
        | (st2, true) => ({ st2 with walletState := "unlocked" }, UnlockPwResult.success)
        | (st2, false) => ({ st2 with aesKey := Option.none }, UnlockPwResult.failure)
    | _ => ({ st with aesKey := Option.none }, UnlockPwResult.failure)

/-- The overwrite loop of `lockWallet()`:
`for (...) decryptedKeys[i].key = ''`. -/
def wipeEntries (entries : List Entry) : List Entry :=
  entries.map (fun e => { e with key := "" })

/-- `lockWallet()`: overwrites every decrypted entry's `key` field, then
discards the list, nulls `aesKey`, resets `activeKeyIndex` and moves to
`'locked'`.  (The page-rendering caches it also clears are display state,
outside the vault model.) -/
def lockWallet (st : VaultState) : VaultState :=
  let _wiped := wipeEntries st.decryptedKeys
  { st with decryptedKeys := [], aesKey := Option.none
            activeKeyIndex := 0, walletState := "locked" }

/-- `switchKey(index)`: sets `activeKeyIndex` to the parsed index.  There
is no bounds check. -/
def switchKey (st : VaultState) (index : Nat) : VaultState :=
  { st with activeKeyIndex := index }

/-- `getActiveAddress()`: `''` unless unlocked with a nonempty list, else
`decryptedKeys[activeKeyIndex].address`; `none` embeds the `TypeError`
thrown when `activeKeyIndex` is out of bounds (`undefined.address`). -/
def getActiveAddress (st : VaultState) : Option String :=
  if st.walletState ≠ "unlocked" ∨ st.decryptedKeys.length = 0 then some ""
  else (st.decryptedKeys.get? st.activeKeyIndex).map (fun e => e.address)

/-- Whitespace stripped by JavaScript `String.prototype.trim` (the
code points relevant to keyboard input). -/
def isJsWhitespace (c : Char) : Bool :=
  c = ' ' || c = '\t' || c = '\n' || c = '\r'

/-- JavaScript `s.trim()`: strip whitespace from both ends. -/
def jsTrim (s : String) : String :=
  String.mk (((s.data.dropWhile isJsWhitespace).reverse.dropWhile isJsWhitespace).reverse)

/-- One character class of the regex `[0-9a-fA-F]`. -/
def isHexDigit (c : Char) : Bool :=
  decide (('0' ≤ c ∧ c ≤ '9') ∨ ('a' ≤ c ∧ c ≤ 'f') ∨ ('A' ≤ c ∧ c ≤ 'F'))

/-- `key.startsWith('0x')`. -/
def startsWith0x (s : String) : Bool :=
  s.data.take 2 == ['0', 'x']

/-- The regex test `/^0x[0-9a-fA-F]{64}$/.test(key)`. -/
def validKeyFormat (s : String) : Bool :=
  startsWith0x s && (s.data.drop 2).length == 64 && (s.data.drop 2).all isHexDigit

/-- The normalization `doImportKey` applies to the raw key input:
`key = keyInput.value.trim()` then `if (!key.startsWith('0x')) key = '0x' + key`. -/
def normalizeKey (raw : String) : String :=
  let k0 := jsTrim raw
  if startsWith0x k0 then k0 else "0x" ++ k0

/-- Outcome of `doImportKey()`. -/
inductive ImportResult
  | importOk
  | emptyKey
  | invalidFormat
  | notUnlocked
deriving DecidableEq, Repr

/-- `doImportKey()`: defaults the trimmed label to `'Key ' + (storedKeyCount
+ 1)`, rejects an empty key input, normalizes the `0x` prefix, applies the
hex regex, and requires `aesKey`; then derives the address via
`new ethers.Wallet(key).address` (the external deriver, a function
parameter), encrypts, persists `{label, address, encrypted, iv, createdAt}`
(id auto-assigned), re-reads the store to learn the newest id, pushes the
decrypted entry and selects it. -/
def doImportKey (st : VaultState) (labelRaw rawKey : String)
    (deriveAddress : String → String) (iv : List Nat) (now : Nat) :
    VaultState × ImportResult :=
  let label := if jsTrim labelRaw = "" then "Key " ++ toString (st.storedKeyCount + 1)
               else jsTrim labelRaw
  if jsTrim rawKey = "" then (st, ImportResult.emptyKey)
  else
    let key := normalizeKey rawKey
    if validKeyFormat key then
      match st.aesKey with
      | Option.none => (st, ImportResult.notUnlocked)
      | Option.some aes =>
          let address := deriveAddress key
          let ct := (encryptPrivateKey key aes iv).1
          let rec' : KeyRecord :=
            { id := st.nextId, label := label, address := address
              encrypted := ct, iv := iv, createdAt := now }
          let dk := st.decryptedKeys ++
            [{ id := st.nextId, label := label, address := address, key := key }]
          ({ st with
              keys := st.keys ++ [rec']
              nextId := st.nextId + 1
              decryptedKeys := dk
              activeKeyIndex := dk.length - 1
              storedKeyCount := dk.length }, ImportResult.importOk)
    else (st, ImportResult.invalidFormat)

/-- Outcome of `generateKey()`. -/
inductive GenResult
  | genOk
  | notUnlocked
deriving DecidableEq, Repr

/-- `generateKey()`: requires `aesKey`; obtains a fresh random wallet from
`ethers.Wallet.createRandom()` (its private key and address are parameters
of the embedding), labels it `'Key ' + (storedKeyCount + 1)`, then follows
the same encrypt/persist/push/select path as `doImportKey`. -/
def generateKey (st : VaultState) (key address : String)
    (iv : List Nat) (now : Nat) : VaultState × GenResult :=
  match st.aesKey with
  | Option.none => (st, GenResult.notUnlocked)
  | Option.some aes =>
      let label := "Key " ++ toString (st.storedKeyCount + 1)
      let ct := (encryptPrivateKey key aes iv).1
      let rec' : KeyRecord :=
        { id := st.nextId, label := label, address := address
          encrypted := ct, iv := iv, createdAt := now }
      let dk := st.decryptedKeys ++
        [{ id := st.nextId, label := label, address := address, key := key }]
      ({ st with
          keys := st.keys ++ [rec']
          nextId := st.nextId + 1
          decryptedKeys := dk
          activeKeyIndex := dk.length - 1
          storedKeyCount := dk.length }, GenResult.genOk)

/-- `updateKeyLabel(id, newLabel)`: IndexedDB `get(id)`; rejects with
`'Key not found'` when absent, else writes the record back with only its
`label` replaced (ids are the store's unique primary keys). -/
def updateKeyLabel (records : List KeyRecord) (id : Nat) (newLabel : String) :
    Option (List KeyRecord) :=
  if records.any (fun r => r.id = id) then
    some (records.map (fun r => if r.id = id then { r with label := newLabel } else r))
  else none

/-- `decryptedKeys.find(k => k.id === keyId)` followed by the in-place
label assignment: only the first matching entry's label changes. -/
def renameFirst : List Entry → Nat → String → List Entry
  | [], _, _ => []
  | e :: rest, id, newLabel =>
      if e.id = id then { e with label := newLabel } :: rest
      else e :: renameFirst rest id newLabel

/-- Outcome of `doRenameKey()`. -/
inductive RenameResult
  | renameOk
  | emptyLabel
  | notFound
deriving DecidableEq, Repr

/-- `doRenameKey()`: trims the new label, rejects it when empty, runs
`updateKeyLabel` against the store, then updates the first matching
in-memory entry. -/
def doRenameKey (st : VaultState) (keyId : Nat) (newLabelRaw : String) :
    VaultState × RenameResult :=
  let newLabel := jsTrim newLabelRaw
  if newLabel = "" then (st, RenameResult.emptyLabel)
  else
    match updateKeyLabel st.keys keyId newLabel with
    | Option.none => (st, RenameResult.notFound)
    | Option.some records =>
        ({ st with keys := records
                   decryptedKeys := renameFirst st.decryptedKeys keyId newLabel },
         RenameResult.renameOk)

/-! Concrete fixtures used by counterexamples and witnesses. -/

/-- Key derived from the correct password of the fixtures. -/
def fixKeyGood : SymKey := deriveAESKeyFromPassword "password1" [1]

/-- Key derived from a different password (an orphaned or tampered record
decrypts under no key the vault can now derive). -/
def fixKeyBad : SymKey := deriveAESKeyFromPassword "other9999" [1]

/-- A record that decrypts under `fixKeyGood`. -/
def fixRecGood : KeyRecord :=
  { id := 1, label := "a", address := "0xA"
    encrypted := (encryptPrivateKey "0xK1" fixKeyGood [7]).1, iv := [7], createdAt := 0 }

/-- A record that does not decrypt under `fixKeyGood`. -/
def fixRecBad : KeyRecord :=
  { id := 2, label := "b", address := "0xB"
    encrypted := (encryptPrivateKey "0xK2" fixKeyBad [8]).1, iv := [8], createdAt := 0 }

/-- Locked password vault holding one good and one undecryptable record. -/
def fixStMixed : VaultState :=
  initVault (some (Cred.password [1] 0)) [fixRecGood, fixRecBad]

/-- Locked password vault with no records. -/
def fixStLockedEmpty : VaultState :=
  initVault (some (Cred.password [1] 0)) []

/-- Locked PRF vault holding one record that the derived key cannot
decrypt. -/
def fixStPrf : VaultState :=
  initVault (some (Cred.prf [1, 2] "localhost" [] 0)) [fixRecBad]

/-- Unlocked vault with a single decrypted entry. -/
def fixStUnlockedOne : VaultState :=
  { walletState := "unlocked"
    decryptedKeys := [{ id := 1, label := "Main", address := "0xA", key := "0xK1" }]
    activeKeyIndex := 0, aesKey := some fixKeyGood, storedKeyCount := 1
    credMethod := "password", credential := some (Cred.password [1] 0)
    keys := [fixRecGood], nextId := 2 }

/-- Unlocked vault with no keys yet (fresh after password setup). -/
def fixStUnlockedEmpty : VaultState :=
  { walletState := "unlocked", decryptedKeys := [], activeKeyIndex := 0
    aesKey := some fixKeyGood, storedKeyCount := 0, credMethod := "password"
    credential := some (Cred.password [1] 0), keys := [], nextId := 1 }

/-! Claim theorems. -/

/-- Claim C5: `deriveAESKeyFromPRF` is HKDF-SHA256 with fixed salt
`"wallet-encryption-v1"` and fixed info `"AES-GCM Wallet Encryption Key V1"`
producing a non-extractable 256-bit AES-GCM key, and
`deriveAESKeyFromPassword` is PBKDF2-HMAC-SHA256 with exactly 600,000
iterations over the persisted salt; both are deterministic (pure) functions
of their inputs. -/
theorem claim_C5_derivation (prf : List Nat) (pw : String) (salt : List Nat) :
    deriveAESKeyFromPRF prf =
      { material := KeyMaterial.hkdf (strBytes "wallet-encryption-v1")
          (strBytes "AES-GCM Wallet Encryption Key V1") "SHA-256" prf
        algoName := "AES-GCM", algoLength := 256, extractable := false }
    ∧ deriveAESKeyFromPassword pw salt =
      { material := KeyMaterial.pbkdf2 salt 600000 "SHA-256" pw
        algoName := "AES-GCM", algoLength := 256, extractable := false }
    ∧ PBKDF2_ITERATIONS = 600000 :=
  ⟨rfl, rfl, rfl⟩

/-- Claim C6: for every private-key string and every derived key, decrypting
the ciphertext produced by `encryptPrivateKey` with the same key and the IV
produced by the encryption returns the plaintext exactly. -/
theorem claim_C6_roundtrip (K : String) (key : SymKey) (iv : List Nat) :
    decryptPrivateKey (encryptPrivateKey K key iv).1
      (encryptPrivateKey K key iv).2 key = some K :=
  decrypt_encrypt K key iv

/-- Claim C4: `lockWallet` overwrites every decrypted entry's plaintext
field (the wipe loop leaves every entry with an empty `key`) before
discarding the list, discards the symmetric key, resets `activeKeyIndex`
to 0 and transitions to `'locked'`, leaving the persisted stores untouched;
and calling it on a Locked-state vault (no key held, empty decrypted list,
index 0) changes nothing. -/
theorem claim_C4_lock (st : VaultState) :
    (∀ e ∈ wipeEntries st.decryptedKeys, e.key = "")
    ∧ (lockWallet st).decryptedKeys = []
    ∧ (lockWallet st).aesKey = Option.none
    ∧ (lockWallet st).activeKeyIndex = 0
    ∧ (lockWallet st).walletState = "locked"
    ∧ (lockWallet st).keys = st.keys
    ∧ (lockWallet st).credential = st.credential
    ∧ (lockWallet st).storedKeyCount = st.storedKeyCount
    ∧ (st.walletState = "locked" → st.aesKey = Option.none →
        st.decryptedKeys = [] → st.activeKeyIndex = 0 → lockWallet st = st) := by
  refine ⟨?_, rfl, rfl, rfl, rfl, rfl, rfl, rfl, ?_⟩
  · intro e he
    simp only [wipeEntries, List.mem_map] at he
    obtain ⟨a, _, rfl⟩ := he
    rfl
  · intro h1 h2 h3 h4
    cases st
    simp_all [lockWallet]

/-- Witness for C4 at a concrete Locked state. -/
theorem claim_C4_lock_witness :
    lockWallet fixStLockedEmpty = fixStLockedEmpty :=
  (claim_C4_lock fixStLockedEmpty).2.2.2.2.2.2.2.2
    (by decide) (by decide) (by decide) (by decide)

/-- Claim C8: a password shorter than 8 characters makes
`setupWithPassword` fail with a validation error before any cryptographic
or persistence step: the state (credential store included) is returned
unchanged, and the check is inside the operation itself. -/
theorem claim_C8_setup_short_password (st : VaultState) (pw confirm : String)
    (salt : List Nat) (now : Nat) (h : pw.length < 8) :
    (setupWithPassword st pw confirm salt now).1 = st
    ∧ ((setupWithPassword st pw confirm salt now).2 = SetupResult.emptyPassword
        ∨ (setupWithPassword st pw confirm salt now).2 = SetupResult.tooShort) := by
  unfold setupWithPassword
  by_cases hp : pw = ""
  · simp [hp]
  · simp [hp, h]

/-- Witness for C8 at a concrete five-character password. -/
theorem claim_C8_setup_short_password_witness :
    (setupWithPassword fixStLockedEmpty "short" "short" [3] 0).1 = fixStLockedEmpty :=
  (claim_C8_setup_short_password fixStLockedEmpty "short" "short" [3] 0 (by decide)).1

/-- Counterexample to C1 as stated: on a locked password vault whose first
persisted record decrypts under the derived key but whose second does not,
`unlockWithPassword` with that password fails — yet the decrypted-entry
list is left with one entry (the first record's plaintext), not empty. -/
theorem claim_C1_counterexample :
    (unlockWithPassword fixStMixed "password1").2 = UnlockPwResult.failure
    ∧ (unlockWithPassword fixStMixed "password1").1.decryptedKeys.map
        (fun e => e.key) = ["0xK1"]
    ∧ (unlockWithPassword fixStMixed "password1").1.decryptedKeys ≠ [] := by
  decide

/-- Claim C1 (amended): when `unlockWithPassword` derives a key under which
decrypting the persisted records fails, the attempt fails, the state string
is unchanged (it remains `'locked'`), and the derived key is discarded —
but the decrypted list is left holding exactly the entries decrypted before
the first failing record.  In particular, when the FIRST record already
fails (as with a uniformly wrong password), the list remains empty. -/
theorem claim_C1_unlock_atomicity (st : VaultState) (pw : String)
    (salt : List Nat) (t : Nat)
    (hcred : st.credential = some (Cred.password salt t)) (hpw : pw ≠ "") :
    ((decryptAllKeysLoop (some (deriveAESKeyFromPassword pw salt)) st.keys []).2 = false →
      (unlockWithPassword st pw).2 = UnlockPwResult.failure
      ∧ (unlockWithPassword st pw).1.walletState = st.walletState
      ∧ (unlockWithPassword st pw).1.aesKey = Option.none
      ∧ (unlockWithPassword st pw).1.decryptedKeys =
          (decryptAllKeysLoop (some (deriveAESKeyFromPassword pw salt)) st.keys []).1)
    ∧ (∀ r rest, st.keys = r :: rest →
        decryptPrivateKey r.encrypted r.iv (deriveAESKeyFromPassword pw salt)
          = Option.none →
        decryptAllKeysLoop (some (deriveAESKeyFromPassword pw salt)) st.keys []
          = ([], false)) := by
  constructor
  · intro hfail
    rcases hloop : decryptAllKeysLoop (some (deriveAESKeyFromPassword pw salt)) st.keys []
      with ⟨entries, b⟩
    rw [hloop] at hfail
    cases b with
    | true => exact absurd hfail (by simp)
    | false =>
        refine ⟨?_, ?_, ?_, ?_⟩ <;>
          simp [unlockWithPassword, decryptAllKeys, if_neg hpw, hcred, hloop]
  · intro r rest hk hd
    rw [hk]
    unfold decryptAllKeysLoop
    simp [hd]

/-- Witness for C1 (amended) at the mixed two-record fixture. -/
theorem claim_C1_unlock_atomicity_witness :
    (unlockWithPassword fixStMixed "password1").1.aesKey = Option.none :=
  (((claim_C1_unlock_atomicity fixStMixed "password1" [1] 0
      (by decide) (by decide)).1 (by decide)).2.2.1)

/-- Counterexample to C2 as stated: a Locked state is reached by
`initVault` with an existing PRF descriptor followed by a failed PRF unlock
(the stored record does not decrypt under the derived key); the `catch`
block of `unlockWallet` never clears `aesKey`, so this reachable Locked
state holds a symmetric key in memory. -/
theorem claim_C2_counterexample :
    (unlockWallet fixStPrf (some [9, 9])).2 = UnlockPrfResult.failure
    ∧ (unlockWallet fixStPrf (some [9, 9])).1.walletState = "locked"
    ∧ (unlockWallet fixStPrf (some [9, 9])).1.aesKey ≠ Option.none := by
  decide

/-- Claim C2 (amended): Locked states reached by `initVault` with an
existing descriptor or by `lockWallet` hold no symmetric key and an empty
decrypted list; a failed `unlockWithPassword` leaves the state string
unchanged and discards the derived key (though it may retain entries
decrypted before the failure, and a failed PRF unlock does not discard the
key at all). -/
theorem claim_C2_locked_no_key (c : Cred) (records : List KeyRecord)
    (st : VaultState) (pw : String) :
    ((initVault (some c) records).walletState = "locked"
      ∧ (initVault (some c) records).aesKey = Option.none
      ∧ (initVault (some c) records).decryptedKeys = [])
    ∧ ((lockWallet st).walletState = "locked"
      ∧ (lockWallet st).aesKey = Option.none
      ∧ (lockWallet st).decryptedKeys = [])
    ∧ ((unlockWithPassword st pw).2 = UnlockPwResult.failure →
        (unlockWithPassword st pw).1.aesKey = Option.none
        ∧ (unlockWithPassword st pw).1.walletState = st.walletState) := by
  refine ⟨⟨rfl, rfl, rfl⟩, ⟨rfl, rfl, rfl⟩, ?_⟩
  intro hfail
  unfold unlockWithPassword at hfail ⊢
  by_cases hpw : pw = ""
  · simp [hpw] at hfail
  · rw [if_neg hpw] at hfail ⊢
    match hcred : st.credential with
    | Option.none => simp [hcred]
    | Option.some (Cred.prf a b c d) => simp [hcred]
    | Option.some (Cred.password salt t) =>
        rcases hloop : decryptAllKeysLoop
            (some (deriveAESKeyFromPassword pw salt)) st.keys [] with ⟨entries, b⟩
        cases b with
        | true =>
            rw [hcred] at hfail
            simp [decryptAllKeys, hloop] at hfail
        | false => simp [decryptAllKeys, hloop]

/-- Witness for C2 (amended): the password-unlock failure conjunct at the
mixed fixture. -/
theorem claim_C2_locked_no_key_witness :
    (unlockWithPassword fixStMixed "wrongpass").1.aesKey = Option.none :=
  ((claim_C2_locked_no_key (Cred.password [1] 0) [] fixStMixed "wrongpass").2.2
    (by decide)).1

/-- Counterexample to C3 as stated: on an Unlocked state whose decrypted
list has length 1, `switchKey 5` does not fail with a range error — it
stores the out-of-bounds index, after which the active-address lookup has
no defined value (`undefined.address` in the page). -/
theorem claim_C3_counterexample :
    (switchKey fixStUnlockedOne 5).activeKeyIndex = 5
    ∧ getActiveAddress (switchKey fixStUnlockedOne 5) = Option.none := by
  decide

/-- Claim C3 (amended): `switchKey` performs no bounds check: for every
state and index it sets `activeKeyIndex` to the given index and changes
nothing else.  When the index is within the decrypted list's bounds the
subsequently read active address is that entry's address; when it is out of
bounds on a nonempty list the active-address lookup is undefined instead of
a range error having been raised. -/
theorem claim_C3_switchKey (st : VaultState) (i : Nat) :
    switchKey st i = { st with activeKeyIndex := i }
    ∧ (st.walletState = "unlocked" →
        ∀ h : i < st.decryptedKeys.length,
          getActiveAddress (switchKey st i)
            = some (st.decryptedKeys.get ⟨i, h⟩).address)
    ∧ (st.walletState = "unlocked" → st.decryptedKeys.length ≠ 0 →
        st.decryptedKeys.length ≤ i →
        getActiveAddress (switchKey st i) = Option.none) := by
  refine ⟨rfl, ?_, ?_⟩
  · intro hw h
    have hne : st.decryptedKeys.length ≠ 0 :=
      Nat.pos_iff_ne_zero.mp (Nat.lt_of_le_of_lt (Nat.zero_le i) h)
    simp [getActiveAddress, switchKey, hw, hne]
    exact ⟨st.decryptedKeys[i], List.getElem?_eq_getElem h, rfl⟩
  · intro hw hne hle
    simp [getActiveAddress, switchKey, hw, hne]
    exact hle

/-- Witness for C3 (amended) at the one-entry fixture with an in-bounds
index. -/
theorem claim_C3_switchKey_witness :
    getActiveAddress (switchKey fixStUnlockedOne 0) = some "0xA" := by
  have h := (claim_C3_switchKey fixStUnlockedOne 0).2.1 (by decide) (by decide)
  simpa using h

/-- Claim C9: starting from an empty Unlocked vault, two sequential
`generateKey` calls (whose external random wallets are the parameters)
produce records labelled `"Key 1"` then `"Key 2"` — the default label being
`'Key ' + (storedKeyCount + 1)` — with the two externally supplied distinct
addresses, and `activeKeyIndex` equals the newest entry's position after
each call. -/
theorem claim_C9_generate_labels (st : VaultState) (aes : SymKey)
    (k1 a1 k2 a2 : String) (iv1 iv2 : List Nat) (t1 t2 : Nat)
    (hkey : st.aesKey = some aes) (hentries : st.decryptedKeys = [])
    (hcount : st.storedKeyCount = 0) (hkeys : st.keys = []) (haddr : a1 ≠ a2) :
    (generateKey st k1 a1 iv1 t1).2 = GenResult.genOk
    ∧ (generateKey (generateKey st k1 a1 iv1 t1).1 k2 a2 iv2 t2).2 = GenResult.genOk
    ∧ (generateKey st k1 a1 iv1 t1).1.decryptedKeys.map (fun e => e.label)
        = ["Key 1"]
    ∧ (generateKey (generateKey st k1 a1 iv1 t1).1 k2 a2 iv2 t2).1.decryptedKeys.map
        (fun e => e.label) = ["Key 1", "Key 2"]
    ∧ (generateKey (generateKey st k1 a1 iv1 t1).1 k2 a2 iv2 t2).1.keys.map
        (fun r => r.label) = ["Key 1", "Key 2"]
    ∧ (generateKey (generateKey st k1 a1 iv1 t1).1 k2 a2 iv2 t2).1.decryptedKeys.map
        (fun e => e.address) = [a1, a2]
    ∧ a1 ≠ a2
    ∧ (generateKey st k1 a1 iv1 t1).1.activeKeyIndex = 0
    ∧ (generateKey st k1 a1 iv1 t1).1.decryptedKeys.length = 1
    ∧ (generateKey (generateKey st k1 a1 iv1 t1).1 k2 a2 iv2 t2).1.activeKeyIndex = 1
    ∧ (generateKey (generateKey st k1 a1 iv1 t1).1 k2 a2 iv2 t2).1.decryptedKeys.length
        = 2 := by
  simp [generateKey, hkey, hentries, hcount, hkeys, haddr]
  exact ⟨rfl, rfl⟩

/-- Witness for C9 at the empty Unlocked fixture. -/
theorem claim_C9_generate_labels_witness :
    (generateKey (generateKey fixStUnlockedEmpty "0xK1" "0xA" [1] 0).1
      "0xK2" "0xB" [2] 0).1.decryptedKeys.map (fun e => e.label)
      = ["Key 1", "Key 2"] :=
  (claim_C9_generate_labels fixStUnlockedEmpty fixKeyGood "0xK1" "0xA" "0xK2" "0xB"
    [1] [2] 0 0 (by decide) (by decide) (by decide) (by decide)
    (by decide)).2.2.2.1

/-- A string passing the key regex is exactly 66 characters long
(`0x` plus 64 hex digits). -/
lemma validKeyFormat_length (s : String) (h : validKeyFormat s = true) :
    s.length = 66 := by
  unfold validKeyFormat startsWith0x at h
  simp only [Bool.and_eq_true, beq_iff_eq] at h
  obtain ⟨⟨h1, h2⟩, _⟩ := h
  have ht : (s.data.take 2).length = 2 := by rw [h1]; rfl
  have hlen : s.data.length = 66 := by
    conv_lhs => rw [← List.take_append_drop 2 s.data]
    rw [List.length_append, ht, h2]
  exact hlen

/-- Claim C7: with the vault unlocked, `doImportKey` accepts the raw key
input exactly when, after trimming and prepending `0x` if missing, it is
`0x` followed by 64 hex digits; any other input leaves the state untouched
(validation precedes every side effect).  On success one record is
appended to the store whose ciphertext decrypts (under the session key and
the record's IV) to the 66-character normalized input and whose address is
the external deriver's output for that key; a decrypted entry is appended
and `activeKeyIndex` is set to its position. -/
theorem claim_C7_importKey (st : VaultState) (labelRaw rawKey : String)
    (deriveAddress : String → String) (iv : List Nat) (now : Nat) (aes : SymKey)
    (hkey : st.aesKey = some aes) :
    ((doImportKey st labelRaw rawKey deriveAddress iv now).2 = ImportResult.importOk
      ↔ validKeyFormat (normalizeKey rawKey) = true)
    ∧ (validKeyFormat (normalizeKey rawKey) = true →
        (∃ r : KeyRecord,
          (doImportKey st labelRaw rawKey deriveAddress iv now).1.keys
            = st.keys ++ [r]
          ∧ decryptPrivateKey r.encrypted r.iv aes = some (normalizeKey rawKey)
          ∧ r.address = deriveAddress (normalizeKey rawKey))
        ∧ (normalizeKey rawKey).length = 66
        ∧ (∃ e : Entry,
          (doImportKey st labelRaw rawKey deriveAddress iv now).1.decryptedKeys
            = st.decryptedKeys ++ [e]
          ∧ e.key = normalizeKey rawKey
          ∧ e.address = deriveAddress (normalizeKey rawKey))
        ∧ (doImportKey st labelRaw rawKey deriveAddress iv now).1.activeKeyIndex
            = (doImportKey st labelRaw rawKey deriveAddress iv now).1.decryptedKeys.length
              - 1)
    ∧ (validKeyFormat (normalizeKey rawKey) = false →
        (doImportKey st labelRaw rawKey deriveAddress iv now).1 = st) := by
  by_cases hemptyK : jsTrim rawKey = ""
  · have hnorm : normalizeKey rawKey = "0x" := by
      simp only [normalizeKey, hemptyK]
      decide
    have hval : validKeyFormat (normalizeKey rawKey) = false := by
      rw [hnorm]; decide
    refine ⟨?_, ?_, ?_⟩
    · simp [doImportKey, hemptyK, hval]
    · intro hv; exact Bool.noConfusion (hval.symm.trans hv)
    · intro _; simp [doImportKey, hemptyK]
  · cases hval : validKeyFormat (normalizeKey rawKey) with
    | true =>
        refine ⟨?_, ?_, ?_⟩
        · simp [doImportKey, hemptyK, hval, hkey]
        · intro _
          refine ⟨⟨{ id := st.nextId
                     label := if jsTrim labelRaw = ""
                              then "Key " ++ toString (st.storedKeyCount + 1)
                              else jsTrim labelRaw
                     address := deriveAddress (normalizeKey rawKey)
                     encrypted := (encryptPrivateKey (normalizeKey rawKey) aes iv).1
                     iv := iv, createdAt := now }, ?_, ?_, ?_⟩,
                  validKeyFormat_length _ hval,
                  ⟨{ id := st.nextId
                     label := if jsTrim labelRaw = ""
                              then "Key " ++ toString (st.storedKeyCount + 1)
                              else jsTrim labelRaw
                     address := deriveAddress (normalizeKey rawKey)
                     key := normalizeKey rawKey }, ?_, ?_, ?_⟩, ?_⟩ <;>
            simp [doImportKey, hemptyK, hval, hkey, decryptPrivateKey, encryptPrivateKey]
        · intro hv; exact Bool.noConfusion hv
    | false =>
        refine ⟨?_, ?_, ?_⟩
        · simp [doImportKey, hemptyK, hval]
        · intro hv; exact Bool.noConfusion hv
        · intro _; simp [doImportKey, hemptyK, hval]

/-- Witness for C7 at the empty Unlocked fixture and Scenario B's key
input. -/
theorem claim_C7_importKey_witness :
    (doImportKey fixStUnlockedEmpty "Main"
      "0x1111111111111111111111111111111111111111111111111111111111111111"
      (fun _ => "0xDER") [4] 0).2 = ImportResult.importOk :=
  (claim_C7_importKey fixStUnlockedEmpty "Main"
    "0x1111111111111111111111111111111111111111111111111111111111111111"
    (fun _ => "0xDER") [4] 0 fixKeyGood (by decide)).1.mpr (by decide)

/-- `renameFirst` preserves the list's length. -/
lemma renameFirst_length (l : List Entry) (id : Nat) (L : String) :
    (renameFirst l id L).length = l.length := by
  induction l with
  | nil => rfl
  | cons e rest ih =>
      unfold renameFirst
      by_cases he : e.id = id <;> simp [he, ih]

/-- `renameFirst` keeps every entry's `id`, `address` and `key`, and keeps
the label of every entry whose id does not match. -/
lemma renameFirst_fields (l : List Entry) (id : Nat) (L : String) (i : Nat)
    (h1 : i < l.length) (h2 : i < (renameFirst l id L).length) :
    ((renameFirst l id L)[i]).id = (l[i]).id
    ∧ ((renameFirst l id L)[i]).address = (l[i]).address
    ∧ ((renameFirst l id L)[i]).key = (l[i]).key
    ∧ ((l[i]).id ≠ id → ((renameFirst l id L)[i]).label = (l[i]).label) := by
  induction l generalizing i with
  | nil => exact absurd h1 (by simp)
  | cons e rest ih =>
      by_cases he : e.id = id
      · cases i with
        | zero => simp [renameFirst, he]
        | succ j => simp [renameFirst, he]
      · cases i with
        | zero => simp [renameFirst, he]
        | succ j =>
            simp only [renameFirst, if_neg he, List.getElem_cons_succ]
            exact ih j (by simpa using h1)
              (by simpa [renameFirst, if_neg he] using h2)

/-- The first entry whose id matches gets the new label. -/
lemma renameFirst_first_match (l : List Entry) (id : Nat) (L : String) (i : Nat)
    (h1 : i < l.length) (h2 : i < (renameFirst l id L).length)
    (hfirst : ∀ j, j < i → ∀ hj : j < l.length, (l[j]).id ≠ id)
    (hmatch : (l[i]).id = id) :
    ((renameFirst l id L)[i]).label = L := by
  induction l generalizing i with
  | nil => exact absurd h1 (by simp)
  | cons e rest ih =>
      by_cases he : e.id = id
      · cases i with
        | zero =>
            simp only [renameFirst, if_pos he, List.getElem_cons_zero]
        | succ j =>
            exact absurd he (hfirst 0 (Nat.succ_pos j) (by simp))
      · cases i with
        | zero => exact absurd (by simpa using hmatch) he
        | succ j =>
            simp only [renameFirst, if_neg he, List.getElem_cons_succ]
            refine ih j (by simpa using h1)
              (by simpa [renameFirst, if_neg he] using h2) ?_ (by simpa using hmatch)
            intro m hm hml
            have hh := hfirst (m + 1) (by omega) (by simpa using hml)
            simpa using hh

/-- Claim C10: for a stored id present in the `keys` store and a label
whose trimmed form is nonempty, `doRenameKey` succeeds and changes only
labels: every persisted record keeps its `id`, `address`, `encrypted`,
`iv` and `createdAt`; records with a non-matching id also keep their
label, and the record with the matching id gets the trimmed new label.
In memory, every entry keeps its `id`, `address` and plaintext `key`,
non-matching entries keep their label, the first matching entry gets the
trimmed new label, and every other state component is unchanged. -/
theorem claim_C10_rename_frame (st : VaultState) (id : Nat) (L : String)
    (hid : st.keys.any (fun r => r.id = id) = true) (hL : jsTrim L ≠ "") :
    (doRenameKey st id L).2 = RenameResult.renameOk
    ∧ (doRenameKey st id L).1.keys.length = st.keys.length
    ∧ (∀ i (h1 : i < st.keys.length) (h2 : i < (doRenameKey st id L).1.keys.length),
        (((doRenameKey st id L).1.keys[i]).id = (st.keys[i]).id
        ∧ ((doRenameKey st id L).1.keys[i]).address = (st.keys[i]).address
        ∧ ((doRenameKey st id L).1.keys[i]).encrypted = (st.keys[i]).encrypted
        ∧ ((doRenameKey st id L).1.keys[i]).iv = (st.keys[i]).iv
        ∧ ((doRenameKey st id L).1.keys[i]).createdAt = (st.keys[i]).createdAt)
        ∧ ((st.keys[i]).id ≠ id →
            ((doRenameKey st id L).1.keys[i]).label = (st.keys[i]).label)
        ∧ ((st.keys[i]).id = id →
            ((doRenameKey st id L).1.keys[i]).label = jsTrim L))
    ∧ (doRenameKey st id L).1.decryptedKeys.length = st.decryptedKeys.length
    ∧ (∀ i (h1 : i < st.decryptedKeys.length)
          (h2 : i < (doRenameKey st id L).1.decryptedKeys.length),
        ((doRenameKey st id L).1.decryptedKeys[i]).id = (st.decryptedKeys[i]).id
        ∧ ((doRenameKey st id L).1.decryptedKeys[i]).address
            = (st.decryptedKeys[i]).address
        ∧ ((doRenameKey st id L).1.decryptedKeys[i]).key = (st.decryptedKeys[i]).key
        ∧ ((st.decryptedKeys[i]).id ≠ id →
            ((doRenameKey st id L).1.decryptedKeys[i]).label
              = (st.decryptedKeys[i]).label)
        ∧ ((∀ j, j < i → ∀ hj : j < st.decryptedKeys.length,
              (st.decryptedKeys[j]).id ≠ id) → (st.decryptedKeys[i]).id = id →
            ((doRenameKey st id L).1.decryptedKeys[i]).label = jsTrim L))
    ∧ (doRenameKey st id L).1.walletState = st.walletState
    ∧ (doRenameKey st id L).1.aesKey = st.aesKey
    ∧ (doRenameKey st id L).1.activeKeyIndex = st.activeKeyIndex
    ∧ (doRenameKey st id L).1.storedKeyCount = st.storedKeyCount
    ∧ (doRenameKey st id L).1.credential = st.credential := by
  have hstep : doRenameKey st id L =
      ({ st with
          keys := st.keys.map (fun r => if r.id = id then { r with label := jsTrim L }
                                        else r)
          decryptedKeys := renameFirst st.decryptedKeys id (jsTrim L) },
        RenameResult.renameOk) := by
    unfold doRenameKey updateKeyLabel
    rw [if_neg hL, if_pos hid]
  rw [hstep]
  refine ⟨rfl, by simp, ?_, by simp [renameFirst_length], ?_, rfl, rfl, rfl, rfl, rfl⟩
  · intro i h1 h2
    simp only [List.getElem_map]
    by_cases hr : (st.keys[i]).id = id
    · rw [if_pos hr]
      exact ⟨⟨rfl, rfl, rfl, rfl, rfl⟩, fun hne => absurd hr hne, fun _ => rfl⟩
    · rw [if_neg hr]
      exact ⟨⟨rfl, rfl, rfl, rfl, rfl⟩, fun _ => rfl, fun h => absurd h hr⟩
  · intro i h1 h2
    have h2' : i < (renameFirst st.decryptedKeys id (jsTrim L)).length := by
      simpa using h2
    obtain ⟨f1, f2, f3, f4⟩ := renameFirst_fields st.decryptedKeys id (jsTrim L) i h1 h2'
    exact ⟨f1, f2, f3, f4,
      fun hfirst hmatch =>
        renameFirst_first_match st.decryptedKeys id (jsTrim L) i h1 h2' hfirst hmatch⟩

/-- Witness for C10 at the one-entry fixture. -/
theorem claim_C10_rename_frame_witness :
    (doRenameKey fixStUnlockedOne 1 "Renamed").2 = RenameResult.renameOk :=
  (claim_C10_rename_frame fixStUnlockedOne 1 "Renamed" (by decide) (by decide)).1

end Vault
